import Mathlib

/-!
The hdsdk data plane: pooled redis client, kafka producer and dapr invocation

A shallow embedding of

* `provider/cache/redis/client.go` (`NewRedisClient`, every `RedisClient` method),
* `provider/mq/kafka/producer.go` (`Producer.Publish`),
* `lib/dapr/root.go` (`InvokeService`, `InvokeServiceWithClient`),

The external collaborators (the redigo connection and pool, the sarama producer
handle, the dapr client, `encoding/json`) are not part of the repository.  They
are taken as parameters: a record of transition functions over an arbitrary
state type.  Every call made on them is recorded in a trace, so that statements
about which calls a method makes, and in which order, are statements about the
value the embedding computes.
-/

namespace Hdsdk

/-! ## Go values and errors -/

/-- A Go `[]byte`. -/
abbrev Bytes := List UInt8

/-- A Go `error` value.  `wrap` is `errors.Wrap(cause, msg)` and `wrapf` is the
`errors.Wrapf` call of `lib/dapr/root.go`, kept with its format arguments; the
last of them, `utils.BytesToString(value)`, is the bytes of `value` read as a Go
string and is kept as those bytes. -/
inductive GoError where
  | new (msg : String)
  | wrap (cause : GoError) (msg : String)
  | wrapf (cause : GoError) (format : String) (appId methodName : String) (content : Bytes)
  deriving DecidableEq, Repr

/-- A Go `interface{}` value, as far as the type switches of the sources
distinguish it: `string`, `[]byte`, and everything else.  `chan` stands for a
value of a type that has no JSON form. -/
inductive Value where
  | nil
  | str (s : String)
  | bytes (b : Bytes)
  | int (n : Int)
  | chan (id : Nat)
  deriving DecidableEq, Repr

/-- The `types.CacheCommand` of the sources: a command name and its arguments. -/
structure CacheCommand where
  Name : String
  Args : List Value
  deriving DecidableEq, Repr

/-! ## The connection and its trace -/

/-- One call made on the pool or on a connection borrowed from it. -/
inductive Event where
  | get
  | doCmd (name : String) (args : List Value)
  | send (name : String) (args : List Value)
  | flush
  | receive
  | close
  | poolClose
  deriving DecidableEq, Repr

/-- The redigo pool and connection seen from the client: `Get` is `pool.Get()`,
the others are the methods of `redis.Conn`; `Shutdown` is `pool.Close()`.  Each
is a transition on the state `σ` of the outside world and returns what the Go
method returns (`none` is the nil error). -/
structure Conn (σ : Type) where
  Get : σ → σ
  Do : σ → String → List Value → σ × Value × Option GoError
  Send : σ → String → List Value → σ × Option GoError
  Flush : σ → σ × Option GoError
  Receive : σ → σ × Value × Option GoError
  Close : σ → σ × Option GoError
  Shutdown : σ → σ

/-- The state of the outside world together with the calls made so far. -/
structure World (σ : Type) where
  st : σ
  trace : List Event

variable {σ : Type}

/-- The call `r.pool.Get()`. -/
def poolGet (c : Conn σ) (w : World σ) : World σ :=
  { st := c.Get w.st, trace := w.trace ++ [Event.get] }

/-- The call `conn.Do(name, args...)`. -/
def connDo (c : Conn σ) (w : World σ) (name : String) (args : List Value) :
    World σ × Value × Option GoError :=
  let r := c.Do w.st name args
  ({ st := r.1, trace := w.trace ++ [Event.doCmd name args] }, r.2.1, r.2.2)

/-- The call `conn.Send(name, args...)`. -/
def connSend (c : Conn σ) (w : World σ) (name : String) (args : List Value) :
    World σ × Option GoError :=
  let r := c.Send w.st name args
  ({ st := r.1, trace := w.trace ++ [Event.send name args] }, r.2)

/-- The call `conn.Flush()`. -/
def connFlush (c : Conn σ) (w : World σ) : World σ × Option GoError :=
  let r := c.Flush w.st
  ({ st := r.1, trace := w.trace ++ [Event.flush] }, r.2)

/-- The call `conn.Receive()`. -/
def connReceive (c : Conn σ) (w : World σ) : World σ × Value × Option GoError :=
  let r := c.Receive w.st
  ({ st := r.1, trace := w.trace ++ [Event.receive] }, r.2.1, r.2.2)

/-- The deferred `conn.Close()`; its error result is dropped, as `defer` does. -/
def connClose (c : Conn σ) (w : World σ) : World σ :=
  { st := (c.Close w.st).1, trace := w.trace ++ [Event.close] }

/-- The call `r.pool.Close()`. -/
def poolShutdown (c : Conn σ) (w : World σ) : World σ :=
  { st := c.Shutdown w.st, trace := w.trace ++ [Event.poolClose] }

/-! ## `RedisClient`: general purpose operations -/

/-- The method `RedisClient.Del`. -/
def Del (c : Conn σ) (w : World σ) (key : String) : World σ × Option GoError :=
  let w := poolGet c w
  let r := connDo c w "DEL" [Value.str key]
  match r.2.2 with
  | some err => (connClose c r.1, some err)
  | none => (connClose c r.1, none)

/-- The `for _, k := range keys` loop of `RedisClient.Dels`: `some err` is the
early `return err`, `none` is falling out of the loop. -/
def DelsLoop (c : Conn σ) : World σ → List String → World σ × Option GoError
  | w, [] => (w, none)
  | w, k :: rest =>
    let r := connSend c w "DEL" [Value.str k]
    match r.2 with
    | some err => (r.1, some err)
    | none => DelsLoop c r.1 rest

/-- The method `RedisClient.Dels`. -/
def Dels (c : Conn σ) (w : World σ) (keys : List String) : World σ × Option GoError :=
  let w := poolGet c w
  let l := DelsLoop c w keys
  match l.2 with
  | some err => (connClose c l.1, some err)
  | none =>
    let f := connFlush c l.1
    (connClose c f.1, f.2)

/-- The `for _, cmd := range commands` loop of `RedisClient.Pipeline`. -/
def PipelineLoop (c : Conn σ) : World σ → List CacheCommand → World σ × Option GoError
  | w, [] => (w, none)
  | w, cmd :: rest =>
    let r := connSend c w cmd.Name cmd.Args
    match r.2 with
    | some err => (r.1, some err)
    | none => PipelineLoop c r.1 rest

/-- The method `RedisClient.Pipeline`: returns `(reply, err)`. -/
def Pipeline (c : Conn σ) (w : World σ) (commands : List CacheCommand) :
    World σ × Value × Option GoError :=
  let w := poolGet c w
  let l := PipelineLoop c w commands
  match l.2 with
  | some err => (connClose c l.1, Value.nil, some err)
  | none =>
    let f := connFlush c l.1
    match f.2 with
    | some err => (connClose c f.1, Value.nil, some err)
    | none =>
      let rc := connReceive c f.1
      match rc.2.2 with
      | some err => (connClose c rc.1, Value.nil, some err)
      | none => (connClose c rc.1, rc.2.1, none)

/-- The method `RedisClient.Shutdown`. -/
def Shutdown (c : Conn σ) (w : World σ) : World σ :=
  poolShutdown c w

/-! ## The helpers the client takes from outside `src/` -/

/-- A Go `float64`, kept as its IEEE-754 bit pattern; no arithmetic on it is
needed here. -/
structure Float64 where
  bits : Nat
  deriving DecidableEq, Repr

/-- The reply converters of redigo (`redis.Bool`, `redis.Int`, ...): each takes
the `(reply, err)` pair of `conn.Do` and returns the typed pair.  They belong
to the redigo library, so the client is parameterised by them. -/
structure Redigo where
  redisBool : Value → Option GoError → Bool × Option GoError
  redisInt : Value → Option GoError → Int × Option GoError
  redisInt64 : Value → Option GoError → Int × Option GoError
  redisFloat64 : Value → Option GoError → Float64 × Option GoError
  redisString : Value → Option GoError → String × Option GoError
  redisBytes : Value → Option GoError → Bytes × Option GoError
  redisByteSlices : Value → Option GoError → List Bytes × Option GoError
  redisStrings : Value → Option GoError → List String × Option GoError
  redisStringMap : Value → Option GoError → List (String × String) × Option GoError

/-- The helpers of package `hdsdk/utils` that the sources call; the package is
not among the source files, so the callers are parameterised by them.
`utilsString` is `utils.String`, which returns `(string, error)`. -/
structure Utils where
  utilsString : Value → String × Option GoError
  StringToBytes : String → Bytes

/-- What `redis.Args.AddFlat` is handed in the sources: a single dynamic value,
a `[]interface{}`, a `[]string`, or a `map[string]interface{}` (listed in the
order the map is ranged over). -/
inductive Flat where
  | one (v : Value)
  | many (vs : List Value)
  | strs (ss : List String)
  | fields (m : List (String × Value))

/-- The helper `redis.Args.Add`: appends one argument. -/
def ArgsAdd (args : List Value) (v : Value) : List Value :=
  args ++ [v]

/-- The helper `redis.Args.AddFlat`: appends the elements of a slice, the key/value pairs
of a map, or the value itself. -/
def ArgsAddFlat (args : List Value) : Flat → List Value
  | Flat.one v => args ++ [v]
  | Flat.many vs => args ++ vs
  | Flat.strs ss => args ++ ss.map Value.str
  | Flat.fields m => args ++ m.flatMap (fun kv => [Value.str kv.1, kv.2])

/-- The method `RedisClient.Exists`. -/
def Exists (c : Conn σ) (g : Redigo) (w : World σ) (key : String) :
    World σ × Bool × Option GoError :=
  let w := poolGet c w
  let r := connDo c w "EXISTS" [Value.str key]
  (connClose c r.1, g.redisBool r.2.1 r.2.2)

/-- The method `RedisClient.Expire`. -/
def Expire (c : Conn σ) (w : World σ) (key : String) (expire : Int) :
    World σ × Option GoError :=
  let w := poolGet c w
  let r := connDo c w "Expire" [Value.str key, Value.int expire]
  (connClose c r.1, r.2.2)

/-- The method `RedisClient.Incr`. -/
def Incr (c : Conn σ) (w : World σ) (key : String) : World σ × Option GoError :=
  let w := poolGet c w
  let r := connDo c w "INCR" [Value.str key]
  (connClose c r.1, r.2.2)

/-- The method `RedisClient.Ping`. -/
def Ping (c : Conn σ) (w : World σ) : World σ × Option GoError :=
  let w := poolGet c w
  let r := connDo c w "PING" []
  (connClose c r.1, r.2.2)

/-! ## `RedisClient`: hash map operations -/

/-- The method `RedisClient.HDel`. -/
def HDel (c : Conn σ) (g : Redigo) (w : World σ) (key : String) (field : Value) :
    World σ × Int × Option GoError :=
  let w := poolGet c w
  let r := connDo c w "HDEL" [Value.str key, field]
  (connClose c r.1, g.redisInt r.2.1 r.2.2)

/-- The method `RedisClient.HDels`. -/
def HDels (c : Conn σ) (g : Redigo) (w : World σ) (key : String) (fields : List Value) :
    World σ × Int × Option GoError :=
  let w := poolGet c w
  let r := connDo c w "HDEL" (ArgsAddFlat (ArgsAdd [] (Value.str key)) (Flat.many fields))
  (connClose c r.1, g.redisInt r.2.1 r.2.2)

/-- The method `RedisClient.HMGet`. -/
def HMGet (c : Conn σ) (g : Redigo) (w : World σ) (key : String) (fields : List String) :
    World σ × List Bytes × Option GoError :=
  let w := poolGet c w
  let r := connDo c w "HMGET" (ArgsAddFlat (ArgsAdd [] (Value.str key)) (Flat.strs fields))
  (connClose c r.1, g.redisByteSlices r.2.1 r.2.2)

/-- The method `RedisClient.HMSet`. -/
def HMSet (c : Conn σ) (w : World σ) (key : String) (fieldvalues : List (String × Value)) :
    World σ × Option GoError :=
  let w := poolGet c w
  let r := connDo c w "HMSET" (ArgsAddFlat (ArgsAdd [] (Value.str key)) (Flat.fields fieldvalues))
  (connClose c r.1, r.2.2)

/-- The method `RedisClient.HGet`. -/
def HGet (c : Conn σ) (g : Redigo) (w : World σ) (key field : String) :
    World σ × Bytes × Option GoError :=
  let w := poolGet c w
  let r := connDo c w "HGET" [Value.str key, Value.str field]
  (connClose c r.1, g.redisBytes r.2.1 r.2.2)

/-- The method `RedisClient.HGetInt`. -/
def HGetInt (c : Conn σ) (g : Redigo) (w : World σ) (key field : String) :
    World σ × Int × Option GoError :=
  let w := poolGet c w
  let r := connDo c w "HGET" [Value.str key, Value.str field]
  (connClose c r.1, g.redisInt r.2.1 r.2.2)

/-- The method `RedisClient.HGetInt64`. -/
def HGetInt64 (c : Conn σ) (g : Redigo) (w : World σ) (key field : String) :
    World σ × Int × Option GoError :=
  let w := poolGet c w
  let r := connDo c w "HGET" [Value.str key, Value.str field]
  (connClose c r.1, g.redisInt64 r.2.1 r.2.2)

/-- The method `RedisClient.HGetFloat64`. -/
def HGetFloat64 (c : Conn σ) (g : Redigo) (w : World σ) (key field : String) :
    World σ × Float64 × Option GoError :=
  let w := poolGet c w
  let r := connDo c w "HGET" [Value.str key, Value.str field]
  (connClose c r.1, g.redisFloat64 r.2.1 r.2.2)

/-- The method `RedisClient.HGetString`. -/
def HGetString (c : Conn σ) (g : Redigo) (w : World σ) (key field : String) :
    World σ × String × Option GoError :=
  let w := poolGet c w
  let r := connDo c w "HGET" [Value.str key, Value.str field]
  (connClose c r.1, g.redisString r.2.1 r.2.2)

/-- The method `RedisClient.HGetAll`. -/
def HGetAll (c : Conn σ) (g : Redigo) (w : World σ) (key : String) :
    World σ × List (String × String) × Option GoError :=
  let w := poolGet c w
  let r := connDo c w "HGETALL" [Value.str key]
  (connClose c r.1, g.redisStringMap r.2.1 r.2.2)

/-- The method `RedisClient.HSet`: the value is converted first, and a failed conversion
returns before `r.pool.Get()`. -/
def HSet (c : Conn σ) (g : Redigo) (u : Utils) (w : World σ) (key : String)
    (field value : Value) : World σ × Int × Option GoError :=
  let sv := u.utilsString value
  match sv.2 with
  | some err => (w, 0, some err)
  | none =>
    let w := poolGet c w
    let r := connDo c w "HSET" [Value.str key, field, Value.str sv.1]
    (connClose c r.1, g.redisInt r.2.1 r.2.2)

/-! ## `RedisClient`: scalar values -/

/-- The method `RedisClient.Get`. -/
def Get (c : Conn σ) (g : Redigo) (w : World σ) (key : String) :
    World σ × Bytes × Option GoError :=
  let w := poolGet c w
  let r := connDo c w "GET" [Value.str key]
  (connClose c r.1, g.redisBytes r.2.1 r.2.2)

/-- The method `RedisClient.GetInt`. -/
def GetInt (c : Conn σ) (g : Redigo) (w : World σ) (key : String) :
    World σ × Int × Option GoError :=
  let w := poolGet c w
  let r := connDo c w "GET" [Value.str key]
  (connClose c r.1, g.redisInt r.2.1 r.2.2)

/-- The method `RedisClient.GetInt64`. -/
def GetInt64 (c : Conn σ) (g : Redigo) (w : World σ) (key : String) :
    World σ × Int × Option GoError :=
  let w := poolGet c w
  let r := connDo c w "GET" [Value.str key]
  (connClose c r.1, g.redisInt64 r.2.1 r.2.2)

/-- The method `RedisClient.GetFloat64`. -/
def GetFloat64 (c : Conn σ) (g : Redigo) (w : World σ) (key : String) :
    World σ × Float64 × Option GoError :=
  let w := poolGet c w
  let r := connDo c w "GET" [Value.str key]
  (connClose c r.1, g.redisFloat64 r.2.1 r.2.2)

/-- The method `RedisClient.GetString`. -/
def GetString (c : Conn σ) (g : Redigo) (w : World σ) (key : String) :
    World σ × String × Option GoError :=
  let w := poolGet c w
  let r := connDo c w "GET" [Value.str key]
  (connClose c r.1, g.redisString r.2.1 r.2.2)

/-- The method `RedisClient.Set`: a failed conversion returns before `r.pool.Get()`. -/
def Set (c : Conn σ) (u : Utils) (w : World σ) (key : String) (value : Value) :
    World σ × Option GoError :=
  let sv := u.utilsString value
  match sv.2 with
  | some err => (w, some err)
  | none =>
    let w := poolGet c w
    let r := connDo c w "SET" [Value.str key, Value.str sv.1]
    (connClose c r.1, r.2.2)

/-- The method `RedisClient.SetEx`: a failed conversion returns before `r.pool.Get()`. -/
def SetEx (c : Conn σ) (u : Utils) (w : World σ) (key : String) (value : Value)
    (expire : Int) : World σ × Option GoError :=
  let sv := u.utilsString value
  match sv.2 with
  | some err => (w, some err)
  | none =>
    let w := poolGet c w
    let r := connDo c w "SET" [Value.str key, Value.str sv.1, Value.str "EX", Value.int expire]
    (connClose c r.1, r.2.2)

/-! ## `RedisClient`: sets -/

/-- The method `RedisClient.SIsMember`. -/
def SIsMember (c : Conn σ) (g : Redigo) (w : World σ) (key : String) (member : Value) :
    World σ × Bool × Option GoError :=
  let w := poolGet c w
  let r := connDo c w "SISMEMBER" [Value.str key, member]
  (connClose c r.1, g.redisBool r.2.1 r.2.2)

/-- The method `RedisClient.SAdd`. -/
def SAdd (c : Conn σ) (w : World σ) (key : String) (members : Flat) :
    World σ × Option GoError :=
  let w := poolGet c w
  let r := connDo c w "SADD" (ArgsAddFlat (ArgsAdd [] (Value.str key)) members)
  (connClose c r.1, r.2.2)

/-- The method `RedisClient.SRem`. -/
def SRem (c : Conn σ) (w : World σ) (key : String) (members : Flat) :
    World σ × Option GoError :=
  let w := poolGet c w
  let r := connDo c w "SREM" (ArgsAddFlat (ArgsAdd [] (Value.str key)) members)
  (connClose c r.1, r.2.2)

/-- The method `RedisClient.SInter`. -/
def SInter (c : Conn σ) (g : Redigo) (w : World σ) (keys : List String) :
    World σ × List String × Option GoError :=
  let w := poolGet c w
  let r := connDo c w "SINTER" (ArgsAddFlat [] (Flat.strs keys))
  (connClose c r.1, g.redisStrings r.2.1 r.2.2)

/-- The method `RedisClient.SUnion`. -/
def SUnion (c : Conn σ) (g : Redigo) (w : World σ) (keys : List String) :
    World σ × List String × Option GoError :=
  let w := poolGet c w
  let r := connDo c w "SUNION" (ArgsAddFlat [] (Flat.strs keys))
  (connClose c r.1, g.redisStrings r.2.1 r.2.2)

/-- The method `RedisClient.SDiff`. -/
def SDiff (c : Conn σ) (g : Redigo) (w : World σ) (keys : List String) :
    World σ × List String × Option GoError :=
  let w := poolGet c w
  let r := connDo c w "SDIFF" (ArgsAddFlat [] (Flat.strs keys))
  (connClose c r.1, g.redisStrings r.2.1 r.2.2)

/-- The method `RedisClient.SMembers`. -/
def SMembers (c : Conn σ) (g : Redigo) (w : World σ) (key : String) :
    World σ × List String × Option GoError :=
  let w := poolGet c w
  let r := connDo c w "SMEMBERS" [Value.str key]
  (connClose c r.1, g.redisStrings r.2.1 r.2.2)

/-! ## `RedisClient`: sorted sets and lists -/

/-- The method `RedisClient.ZRemRangeByScore`. -/
def ZRemRangeByScore (c : Conn σ) (w : World σ) (key : String) (min max : Value) :
    World σ × Option GoError :=
  let w := poolGet c w
  let r := connDo c w "ZREMRANGEBYSCORE" [Value.str key, min, max]
  (connClose c r.1, r.2.2)

/-- The method `RedisClient.ZRangeByScore`. -/
def ZRangeByScore (c : Conn σ) (g : Redigo) (w : World σ) (key : String) (min max : Value) :
    World σ × List String × Option GoError :=
  let w := poolGet c w
  let r := connDo c w "ZRANGEBYSCORE" [Value.str key, min, max]
  (connClose c r.1, g.redisStrings r.2.1 r.2.2)

/-- The method `RedisClient.ZRange`. -/
def ZRange (c : Conn σ) (g : Redigo) (w : World σ) (key : String) (min max : Int) :
    World σ × List (String × String) × Option GoError :=
  let w := poolGet c w
  let r := connDo c w "ZRANGE" [Value.str key, Value.int min, Value.int max]
  (connClose c r.1, g.redisStringMap r.2.1 r.2.2)

/-- The method `RedisClient.ZAdd`. -/
def ZAdd (c : Conn σ) (w : World σ) (key : String) (score : Int) (member : Value) :
    World σ × Option GoError :=
  let w := poolGet c w
  let r := connDo c w "ZADD" [Value.str key, Value.int score, member]
  (connClose c r.1, r.2.2)

/-- The method `RedisClient.ZCard`. -/
def ZCard (c : Conn σ) (g : Redigo) (w : World σ) (key : String) :
    World σ × Int × Option GoError :=
  let w := poolGet c w
  let r := connDo c w "ZCARD" [Value.str key]
  (connClose c r.1, g.redisInt r.2.1 r.2.2)

/-- The method `RedisClient.ZScore`. -/
def ZScore (c : Conn σ) (g : Redigo) (w : World σ) (key : String) (member : Value) :
    World σ × Int × Option GoError :=
  let w := poolGet c w
  let r := connDo c w "ZSCORE" [Value.str key, member]
  (connClose c r.1, g.redisInt64 r.2.1 r.2.2)

/-- The method `RedisClient.ZInterstore`. -/
def ZInterstore (c : Conn σ) (g : Redigo) (w : World σ) (destKey : String)
    (keys : List Value) : World σ × Int × Option GoError :=
  let w := poolGet c w
  let r := connDo c w "ZINTERSTORE" (ArgsAddFlat (ArgsAdd [] (Value.str destKey)) (Flat.many keys))
  (connClose c r.1, g.redisInt64 r.2.1 r.2.2)

/-- The method `RedisClient.RPop`. -/
def RPop (c : Conn σ) (g : Redigo) (w : World σ) (key : String) :
    World σ × Bytes × Option GoError :=
  let w := poolGet c w
  let r := connDo c w "RPOP" [Value.str key]
  (connClose c r.1, g.redisBytes r.2.1 r.2.2)

/-! ## All the methods of `RedisClient` -/

/-- A call of one method of `RedisClient`, with its arguments. -/
inductive Call where
  | Del (key : String)
  | Dels (keys : List String)
  | Exists (key : String)
  | Expire (key : String) (expire : Int)
  | Incr (key : String)
  | Ping
  | Pipeline (commands : List CacheCommand)
  | Shutdown
  | HDel (key : String) (field : Value)
  | HDels (key : String) (fields : List Value)
  | HMGet (key : String) (fields : List String)
  | HMSet (key : String) (fieldvalues : List (String × Value))
  | HGet (key field : String)
  | HGetInt (key field : String)
  | HGetInt64 (key field : String)
  | HGetFloat64 (key field : String)
  | HGetString (key field : String)
  | HGetAll (key : String)
  | HSet (key : String) (field value : Value)
  | Get (key : String)
  | GetInt (key : String)
  | GetInt64 (key : String)
  | GetFloat64 (key : String)
  | GetString (key : String)
  | Set (key : String) (value : Value)
  | SetEx (key : String) (value : Value) (expire : Int)
  | SIsMember (key : String) (member : Value)
  | SAdd (key : String) (members : Flat)
  | SRem (key : String) (members : Flat)
  | SInter (keys : List String)
  | SUnion (keys : List String)
  | SDiff (keys : List String)
  | SMembers (key : String)
  | ZRemRangeByScore (key : String) (min max : Value)
  | ZRangeByScore (key : String) (min max : Value)
  | ZRange (key : String) (min max : Int)
  | ZAdd (key : String) (score : Int) (member : Value)
  | ZCard (key : String)
  | ZScore (key : String) (member : Value)
  | ZInterstore (destKey : String) (keys : List Value)
  | RPop (key : String)

/-- The world after a method call: the method is run and its result dropped. -/
def perform (c : Conn σ) (g : Redigo) (u : Utils) (w : World σ) : Call → World σ
  | Call.Del key => (Del c w key).1
  | Call.Dels keys => (Dels c w keys).1
  | Call.Exists key => (Exists c g w key).1
  | Call.Expire key expire => (Expire c w key expire).1
  | Call.Incr key => (Incr c w key).1
  | Call.Ping => (Ping c w).1
  | Call.Pipeline commands => (Pipeline c w commands).1
  | Call.Shutdown => Shutdown c w
  | Call.HDel key field => (HDel c g w key field).1
  | Call.HDels key fields => (HDels c g w key fields).1
  | Call.HMGet key fields => (HMGet c g w key fields).1
  | Call.HMSet key fieldvalues => (HMSet c w key fieldvalues).1
  | Call.HGet key field => (HGet c g w key field).1
  | Call.HGetInt key field => (HGetInt c g w key field).1
  | Call.HGetInt64 key field => (HGetInt64 c g w key field).1
  | Call.HGetFloat64 key field => (HGetFloat64 c g w key field).1
  | Call.HGetString key field => (HGetString c g w key field).1
  | Call.HGetAll key => (HGetAll c g w key).1
  | Call.HSet key field value => (HSet c g u w key field value).1
  | Call.Get key => (Get c g w key).1
  | Call.GetInt key => (GetInt c g w key).1
  | Call.GetInt64 key => (GetInt64 c g w key).1
  | Call.GetFloat64 key => (GetFloat64 c g w key).1
  | Call.GetString key => (GetString c g w key).1
  | Call.Set key value => (Set c u w key value).1
  | Call.SetEx key value expire => (SetEx c u w key value expire).1
  | Call.SIsMember key member => (SIsMember c g w key member).1
  | Call.SAdd key members => (SAdd c w key members).1
  | Call.SRem key members => (SRem c w key members).1
  | Call.SInter keys => (SInter c g w keys).1
  | Call.SUnion keys => (SUnion c g w keys).1
  | Call.SDiff keys => (SDiff c g w keys).1
  | Call.SMembers key => (SMembers c g w key).1
  | Call.ZRemRangeByScore key min max => (ZRemRangeByScore c w key min max).1
  | Call.ZRangeByScore key min max => (ZRangeByScore c g w key min max).1
  | Call.ZRange key min max => (ZRange c g w key min max).1
  | Call.ZAdd key score member => (ZAdd c w key score member).1
  | Call.ZCard key => (ZCard c g w key).1
  | Call.ZScore key member => (ZScore c g w key member).1
  | Call.ZInterstore destKey keys => (ZInterstore c g w destKey keys).1
  | Call.RPop key => (RPop c g w key).1

/-! ## `NewRedisClient` -/

/-- Go's `time.Duration` is a count of nanoseconds. -/
abbrev Duration := Int

/-- The constant `time.Nanosecond`. -/
def Nanosecond : Duration := 1
/-- The constant `time.Microsecond`. -/
def Microsecond : Duration := 1000 * Nanosecond
/-- The constant `time.Millisecond`. -/
def Millisecond : Duration := 1000 * Microsecond
/-- The constant `time.Second`. -/
def Second : Duration := 1000 * Millisecond
/-- The constant `time.Minute`. -/
def Minute : Duration := 60 * Second

/-- The `TestOnBorrow` closure of `NewRedisClient`.  `since` is the value of
`time.Since(t)`, the time elapsed since the connection was returned. -/
def TestOnBorrow (c : Conn σ) (w : World σ) (since : Duration) : World σ × Option GoError :=
  if since < Minute then
    (w, none)
  else
    let r := connDo c w "PING" []
    (r.1, r.2.2)

/-- The fields of `redis.Pool` that `NewRedisClient` sets (the `Dial` closure,
which opens the network connection, is left out). -/
structure Pool (σ : Type) where
  MaxIdle : Int
  MaxActive : Int
  IdleTimeout : Duration
  Wait : Bool
  TestOnBorrow : Conn σ → World σ → Duration → World σ × Option GoError

/-- The `RedisClient` struct. -/
structure RedisClient (σ : Type) where
  pool : Pool σ

/-- The constructor `NewRedisClient`: `IdleTimeout` is `time.Duration(120)`. -/
def NewRedisClient (σ : Type) : RedisClient σ :=
  { pool :=
      { MaxIdle := 256
        MaxActive := 0
        IdleTimeout := 120
        Wait := true
        TestOnBorrow := TestOnBorrow } }

/-! ## `Producer.Publish` (kafka) -/

/-- A `sarama.Encoder`: `ByteEncoder` wraps a byte slice unchanged. -/
inductive Encoder where
  | ByteEncoder (b : Bytes)
  | StringEncoder (s : String)
  deriving DecidableEq, Repr

/-- The fields of `sarama.ProducerMessage` a producer can set by hand; a field
that is not set holds Go's zero value (`none` for the nil `Encoder`). -/
structure ProducerMessage where
  Topic : String
  Key : Option Encoder
  Value : Option Encoder
  deriving DecidableEq, Repr

/-- The sarama producer handle `p.Client.handler`. -/
structure SyncProducer (τ : Type) where
  SendMessages : τ → List ProducerMessage → τ × Option GoError

/-- The state of the transport and the `SendMessages` calls made so far. -/
structure KafkaWorld (τ : Type) where
  st : τ
  calls : List (List ProducerMessage)

/-- The `for _, topic := range p.Client.Config.Topics` loop of `Publish`, which
appends one message per topic to `msgs`. -/
def PublishLoop (data : Bytes) : List ProducerMessage → List String → List ProducerMessage
  | msgs, [] => msgs
  | msgs, topic :: rest =>
    let m : ProducerMessage :=
      { Topic := topic, Key := none, Value := some (Encoder.ByteEncoder data) }
    PublishLoop data (msgs ++ [m]) rest

/-- The method `Producer.Publish`; `Topics` is `p.Client.Config.Topics`, and the variadic
`args` are not looked at. -/
def Publish {τ : Type} (h : SyncProducer τ) (Topics : List String) (w : KafkaWorld τ)
    (data : Bytes) (_args : List Value) : KafkaWorld τ × Option GoError :=
  let msgs := PublishLoop data [] Topics
  let r := h.SendMessages w.st msgs
  ({ st := r.1, calls := w.calls ++ [msgs] }, r.2)

/-! ## `InvokeService` and `InvokeServiceWithClient` (dapr) -/

/-- The constant `ContentTypeJson`. -/
def ContentTypeJson : String := "application/json"

/-- The struct `client.DataContent`. -/
structure DataContent where
  ContentType : String
  Data : Bytes
  deriving DecidableEq, Repr

/-- A call made on the dapr side: `client.NewClient()`, or
`InvokeMethodWithContent(ctx, appId, methodName, verb, content)`. -/
inductive DaprEvent where
  | newClient
  | invoke (appId methodName verb : String) (content : DataContent)
  deriving DecidableEq, Repr

/-- A dapr `client.Client`, of which only `InvokeMethodWithContent` is used. -/
structure DaprClient (τ : Type) where
  InvokeMethodWithContent : τ → String → String → String → DataContent → τ × Bytes × Option GoError

/-- The state of the dapr side and the calls made so far. -/
structure DaprWorld (τ : Type) where
  st : τ
  calls : List DaprEvent

/-- What the dapr functions take from outside: `json.Marshal` and
`client.NewClient`, whose client result can be nil (`none`). -/
structure DaprEnv (τ : Type) where
  Marshal : Value → Bytes × Option GoError
  NewClient : τ → τ × Option (DaprClient τ) × Option GoError

/-- The message of the `errors.New` both functions use for a nil client. -/
def nilClientMsg : String :=
  "dapr client is null, name resolution service may not started, please check it"

/-- The format string of the `errors.Wrapf` both functions use. -/
def invokeFormat : String :=
  "dapr invoke method with content, app:%s, method: %s, content: %s"

/-- The call `daprClient.InvokeMethodWithContent(ctx, appId, methodName, "post", content)`. -/
def daprInvoke {τ : Type} (cl : DaprClient τ) (w : DaprWorld τ) (appId methodName : String)
    (content : DataContent) : DaprWorld τ × Bytes × Option GoError :=
  let r := cl.InvokeMethodWithContent w.st appId methodName "post" content
  ({ st := r.1, calls := w.calls ++ [DaprEvent.invoke appId methodName "post" content] },
    r.2.1, r.2.2)

/-- The function `InvokeService`: returns `(response, err)`; the nil slice is `[]`. -/
def InvokeService {τ : Type} (env : DaprEnv τ) (u : Utils) (w : DaprWorld τ)
    (appId methodName : String) (data : Value) : DaprWorld τ × Bytes × Option GoError :=
  let sw : Bytes × Option GoError :=
    match data with
    | Value.str t => (u.StringToBytes t, none)
    | Value.bytes t => (t, none)
    | _ =>
      let m := env.Marshal data
      match m.2 with
      | some err => ([], some (GoError.wrap err "marshal invoke data"))
      | none => (m.1, none)
  match sw.2 with
  | some err => (w, [], some err)
  | none =>
    let value := sw.1
    let n := env.NewClient w.st
    let w : DaprWorld τ := { st := n.1, calls := w.calls ++ [DaprEvent.newClient] }
    match n.2.2 with
    | some err => (w, [], some (GoError.wrap err "new dapr client"))
    | none =>
      match n.2.1 with
      | none => (w, [], some (GoError.new nilClientMsg))
      | some daprClient =>
        let content : DataContent := { ContentType := "application/json", Data := value }
        let r := daprInvoke daprClient w appId methodName content
        match r.2.2 with
        | some err => (r.1, [], some (GoError.wrapf err invokeFormat appId methodName value))
        | none => (r.1, r.2.1, none)

/-- The function `InvokeServiceWithClient`: returns `(response, err)`; the nil slice is `[]`. -/
def InvokeServiceWithClient {τ : Type} (env : DaprEnv τ) (u : Utils)
    (daprClient : Option (DaprClient τ)) (w : DaprWorld τ)
    (appId methodName : String) (data : Value) : DaprWorld τ × Bytes × Option GoError :=
  match daprClient with
  | none => (w, [], some (GoError.new nilClientMsg))
  | some daprClient =>
    let sw : Bytes × Option GoError :=
      match data with
      | Value.str t => (u.StringToBytes t, none)
      | Value.bytes t => (t, none)
      | _ =>
        let m := env.Marshal data
        match m.2 with
        | some err => ([], some (GoError.wrap err "marshal invoke data"))
        | none => (m.1, none)
    match sw.2 with
    | some err => (w, [], some err)
    | none =>
      let value := sw.1
      let content : DataContent := { ContentType := "application/json", Data := value }
      let r := daprInvoke daprClient w appId methodName content
      match r.2.2 with
      | some err => (r.1, [], some (GoError.wrapf err invokeFormat appId methodName value))
      | none => (r.1, r.2.1, none)

/-! ## Concrete collaborators

The definitions above hold for any connection, converter and encoder.  To
evaluate them, here are concrete ones: a connection that behaves as the redigo
documentation describes pipelining, a small server, and encoders.
-/

/-- The state of a pipelining connection: the server's state, the commands
written by `Send` and not yet flushed, and the replies not yet read. -/
structure Fifo (τ : Type) where
  srv : τ
  out : List CacheCommand
  inbox : List Value

/-- The server answers the commands in the order given, one reply each. -/
def serve {τ : Type} (respond : τ → CacheCommand → τ × Value) :
    τ → List CacheCommand → τ × List Value
  | s, [] => (s, [])
  | s, cmd :: rest =>
    let r := respond s cmd
    let rs := serve respond r.1 rest
    (rs.1, r.2 :: rs.2)

/-- A redigo connection in front of a server `respond`, as the package
documents it: `Send` writes the command to the output buffer, `Flush` flushes
the buffer to the server, `Receive` reads a single reply (the oldest unread
one; with none to read, the read times out), and `Do` writes its command,
flushes, reads all pending replies and returns the one of its own command.
`Close` on a pooled connection flushes and discards what is pending.  No
operation fails except a `Receive` with nothing to read. -/
def fifoConn {τ : Type} (respond : τ → CacheCommand → τ × Value) : Conn (Fifo τ) where
  Get := fun s => s
  Do := fun s name args =>
    let r := serve respond s.srv (s.out ++ [{ Name := name, Args := args }])
    ({ srv := r.1, out := [], inbox := [] }, (s.inbox ++ r.2).getLastD Value.nil, none)
  Send := fun s name args =>
    ({ s with out := s.out ++ [{ Name := name, Args := args }] }, none)
  Flush := fun s =>
    let r := serve respond s.srv s.out
    ({ srv := r.1, out := [], inbox := s.inbox ++ r.2 }, none)
  Receive := fun s =>
    match s.inbox with
    | [] => (s, Value.nil, some (GoError.new "i/o timeout"))
    | reply :: rest => ({ s with inbox := rest }, reply, none)
  Close := fun s =>
    let r := serve respond s.srv s.out
    ({ srv := r.1, out := [], inbox := [] }, none)
  Shutdown := fun s => s

/-- A connection that has just been borrowed: nothing buffered, nothing unread. -/
def Fifo.fresh {τ : Type} (srv : τ) : Fifo τ :=
  { srv := srv, out := [], inbox := [] }

/-- A key/value server: `SET k v` stores and answers `OK`, `GET k` answers the
stored value (nil when there is none), any other command answers nil. -/
def kvRespond (store : List (String × Value)) (cmd : CacheCommand) :
    List (String × Value) × Value :=
  match cmd.Name, cmd.Args with
  | "SET", [Value.str k, v] => ((k, v) :: store, Value.str "OK")
  | "GET", [Value.str k] => (store, ((store.lookup k).getD Value.nil))
  | _, _ => (store, Value.nil)

/-- A connection whose `n`-th `Send` or `Flush` (counted from 0 over both) fails
with `err`; the state is the number of `Send` and `Flush` calls made. -/
def failAt (n : Nat) (err : GoError) : Conn Nat where
  Get := fun s => s
  Do := fun s _ _ => (s, Value.nil, none)
  Send := fun s _ _ => (s + 1, if s = n then some err else none)
  Flush := fun s => (s + 1, if s = n then some err else none)
  Receive := fun s => (s, Value.str "reply", none)
  Close := fun s => (s, none)
  Shutdown := fun s => s

/-- The bytes of a string (its UTF-8 encoding). -/
def utf8 (s : String) : Bytes :=
  s.data.flatMap String.utf8EncodeChar

/-- Modelled from the spec: the package `hdsdk/utils` (`utils.String`,
`utils.StringToBytes`) is not among the source files.  `String` gives a value
its string form and fails on a non-primitive value ("Errors from serializing a
non-primitive value before a Set/HSet call"); in this model a string is its
own form, an integer its decimal form, and any other value is rejected.
`StringToBytes` gives the bytes of the string. -/
def modelUtils : Utils where
  utilsString := fun v =>
    match v with
    | Value.str s => (s, none)
    | Value.int n => (toString n, none)
    | _ => ("", some (GoError.new "unsupported value"))
  StringToBytes := utf8

/-- The four hexadecimal digits of `n`, as `\uXXXX` writes them. -/
def hex4 (n : Nat) : String :=
  let d := fun (k : Nat) => (Nat.toDigits 16 (n / 16 ^ k % 16)).asString
  d 3 ++ d 2 ++ d 1 ++ d 0

/-- The quote character `U+0022`. -/
def quoteChar : Char := Char.ofNat 34

/-- The backslash character `U+005C`. -/
def backslashChar : Char := Char.ofNat 92

/-- The JSON escape of one character as `json.Marshal` writes it: the quote, the
backslash, the control characters (line feed, carriage return and tab in their
short form), and `<`, `>`, `&`, U+2028 and U+2029. -/
def jsonEscape (ch : Char) : List Char :=
  if ch.toNat = 34 then [backslashChar, quoteChar] else
  if ch.toNat = 92 then [backslashChar, backslashChar] else
  if ch.toNat = 10 then [backslashChar, 'n'] else
  if ch.toNat = 13 then [backslashChar, 'r'] else
  if ch.toNat = 9 then [backslashChar, 't'] else
  if ch.toNat < 32 ∨ ch = '<' ∨ ch = '>' ∨ ch = '&' ∨ ch.toNat = 8232 ∨ ch.toNat = 8233 then
    [backslashChar, 'u'] ++ (hex4 ch.toNat).data
  else [ch]

/-- The JSON form of a string: the escaped characters between two quotes. -/
def jsonString (s : String) : String :=
  String.mk ([quoteChar] ++ s.data.flatMap jsonEscape ++ [quoteChar])

/-- The base64 alphabet. -/
def b64Char (n : Nat) : Char :=
  "ABCDEFGHIJKLMNOPQRSTUVWXYZabcdefghijklmnopqrstuvwxyz0123456789+/".data.getD n '='

/-- Standard base64 with padding, the JSON form of a `[]byte`. -/
def base64 : List Nat → List Char
  | [] => []
  | [a] => [b64Char (a / 4), b64Char (a % 4 * 16), '=', '=']
  | [a, b] => [b64Char (a / 4), b64Char (a % 4 * 16 + b / 16), b64Char (b % 16 * 4), '=']
  | a :: b :: c :: rest =>
    b64Char (a / 4) :: b64Char (a % 4 * 16 + b / 16) :: b64Char (b % 16 * 4 + c / 64) ::
      b64Char (c % 64) :: base64 rest

/-- A model of `json.Marshal` on the values of `Value`: `null`, a quoted string,
a quoted base64 string for a byte slice, a decimal number, and an error for a
value of a type JSON has no form for. -/
def jsonMarshal : Value → Bytes × Option GoError
  | Value.nil => (utf8 "null", none)
  | Value.str s => (utf8 (jsonString s), none)
  | Value.bytes b =>
    (utf8 (String.mk ([quoteChar] ++ base64 (b.map UInt8.toNat) ++ [quoteChar])), none)
  | Value.int n => (utf8 (toString n), none)
  | Value.chan _ => ([], some (GoError.new "json: unsupported type: chan int"))

/-- A dapr client that answers every invocation with the bytes `resp`. -/
def echoClient (resp : Bytes) : DaprClient Unit where
  InvokeMethodWithContent := fun s _ _ _ _ => (s, resp, none)

/-- An environment with the JSON model and a `NewClient` that succeeds. -/
def modelEnv (resp : Bytes) : DaprEnv Unit where
  Marshal := jsonMarshal
  NewClient := fun s => (s, some (echoClient resp), none)

/-- Reply converters for evaluating the client: the zero value of the result
type, with the error of the command handed through. -/
def sampleRedigo : Redigo where
  redisBool := fun _ err => (false, err)
  redisInt := fun _ err => (0, err)
  redisInt64 := fun _ err => (0, err)
  redisFloat64 := fun _ err => ({ bits := 0 }, err)
  redisString := fun _ err => ("", err)
  redisBytes := fun _ err => ([], err)
  redisByteSlices := fun _ err => ([], err)
  redisStrings := fun _ err => ([], err)
  redisStringMap := fun _ err => ([], err)

/-- Two commands: store a value, then read it back. -/
def sampleCommands : List CacheCommand :=
  [{ Name := "SET", Args := [Value.str "a", Value.str "1"] },
   { Name := "GET", Args := [Value.str "a"] }]

/-! ## Vocabulary of the statements -/

/-- The `DEL` command `Dels` sends for a key. -/
def delCommand (k : String) : CacheCommand :=
  { Name := "DEL", Args := [Value.str k] }

/-- The `Send` events of a list of commands, in order. -/
def sendEvents (cmds : List CacheCommand) : List Event :=
  cmds.map (fun cmd => Event.send cmd.Name cmd.Args)

/-- The state of the connection after `Send` has been called with each command
of the list in turn, starting from `s`. -/
def afterSends (c : Conn σ) : σ → List CacheCommand → σ
  | s, [] => s
  | s, cmd :: rest => afterSends c (c.Send s cmd.Name cmd.Args).1 rest

/-- Whether `Send` returns the nil error for each command of the list in turn,
starting from `s`. -/
def sendsOk (c : Conn σ) : σ → List CacheCommand → Bool
  | _, [] => true
  | s, cmd :: rest =>
    (c.Send s cmd.Name cmd.Args).2.isNone && sendsOk c (c.Send s cmd.Name cmd.Args).1 rest

/-- A command issued on a connection: `Do`, `Send`, `Flush` or `Receive`. -/
def Event.isCommand : Event → Bool
  | Event.doCmd _ _ => true
  | Event.send _ _ => true
  | Event.flush => true
  | Event.receive => true
  | _ => false

/-- The message `Publish` builds for a topic. -/
def publishMessage (data : Bytes) (topic : String) : ProducerMessage :=
  { Topic := topic, Key := none, Value := some (Encoder.ByteEncoder data) }

/-! ## The send loops -/

theorem DelsLoop_eq_PipelineLoop (c : Conn σ) (w : World σ) (keys : List String) :
    DelsLoop c w keys = PipelineLoop c w (keys.map delCommand) := by
  induction keys generalizing w with
  | nil => rfl
  | cons k rest ih =>
    simp only [DelsLoop, PipelineLoop, List.map_cons, delCommand]
    cases h : (connSend c w "DEL" [Value.str k]).2 with
    | none => simpa [delCommand] using ih _
    | some err => rfl

theorem PipelineLoop_ok (c : Conn σ) (w : World σ) (cmds : List CacheCommand)
    (h : sendsOk c w.st cmds = true) :
    PipelineLoop c w cmds =
      ({ st := afterSends c w.st cmds, trace := w.trace ++ sendEvents cmds }, none) := by
  induction cmds generalizing w with
  | nil => simp [PipelineLoop, afterSends, sendEvents]
  | cons cmd rest ih =>
    simp only [sendsOk, Bool.and_eq_true, Option.isNone_iff_eq_none] at h
    simp only [PipelineLoop, connSend, h.1]
    rw [ih _ h.2]
    simp [afterSends, sendEvents]

theorem PipelineLoop_fail (c : Conn σ) (w : World σ) (pre : List CacheCommand)
    (cmd : CacheCommand) (post : List CacheCommand) (err : GoError)
    (h : sendsOk c w.st pre = true)
    (hf : (c.Send (afterSends c w.st pre) cmd.Name cmd.Args).2 = some err) :
    PipelineLoop c w (pre ++ cmd :: post) =
      ({ st := (c.Send (afterSends c w.st pre) cmd.Name cmd.Args).1,
         trace := w.trace ++ sendEvents (pre ++ [cmd]) }, some err) := by
  induction pre generalizing w with
  | nil =>
    simp only [afterSends] at hf
    simp [PipelineLoop, connSend, hf, afterSends, sendEvents]
  | cons p rest ih =>
    simp only [sendsOk, Bool.and_eq_true, Option.isNone_iff_eq_none] at h
    simp only [afterSends] at hf
    have hrec := ih { st := (c.Send w.st p.Name p.Args).1,
                      trace := w.trace ++ [Event.send p.Name p.Args] } h.2 hf
    show PipelineLoop c w (p :: (rest ++ cmd :: post)) = _
    simp only [PipelineLoop, connSend, h.1]
    rw [hrec]
    simp [afterSends, sendEvents]

/-! ## `Pipeline` -/

/-- What `Pipeline` does once every `Send` has succeeded: the rest of its body,
run on the state the sends leave behind. -/
theorem Pipeline_after_sends (c : Conn σ) (s : σ) (commands : List CacheCommand)
    (hsend : sendsOk c (c.Get s) commands = true) :
    Pipeline c { st := s, trace := [] } commands =
      match (c.Flush (afterSends c (c.Get s) commands)).2 with
      | some err =>
        ({ st := (c.Close (c.Flush (afterSends c (c.Get s) commands)).1).1,
           trace := Event.get :: (sendEvents commands ++ [Event.flush, Event.close]) },
          Value.nil, some err)
      | none =>
        match (c.Receive (c.Flush (afterSends c (c.Get s) commands)).1).2.2 with
        | some err =>
          ({ st := (c.Close (c.Receive (c.Flush (afterSends c (c.Get s) commands)).1).1).1,
             trace := Event.get ::
               (sendEvents commands ++ [Event.flush, Event.receive, Event.close]) },
            Value.nil, some err)
        | none =>
          ({ st := (c.Close (c.Receive (c.Flush (afterSends c (c.Get s) commands)).1).1).1,
             trace := Event.get ::
               (sendEvents commands ++ [Event.flush, Event.receive, Event.close]) },
            (c.Receive (c.Flush (afterSends c (c.Get s) commands)).1).2.1, none) := by
  have hl := PipelineLoop_ok c (poolGet c { st := s, trace := [] }) commands hsend
  simp only [poolGet, List.nil_append] at hl
  simp only [Pipeline, poolGet, List.nil_append, hl, connFlush, connReceive, connClose]
  cases hf : (c.Flush (afterSends c (c.Get s) commands)).2 with
  | some err => simp
  | none =>
    cases hr : (c.Receive (c.Flush (afterSends c (c.Get s) commands)).1).2.2 with
    | some err => simp
    | none => simp

/-- What `Pipeline` does when the `Send` of `cmd` fails after the sends of `pre`
have succeeded. -/
theorem Pipeline_send_fails (c : Conn σ) (s : σ) (pre : List CacheCommand)
    (cmd : CacheCommand) (post : List CacheCommand) (err : GoError)
    (hpre : sendsOk c (c.Get s) pre = true)
    (hf : (c.Send (afterSends c (c.Get s) pre) cmd.Name cmd.Args).2 = some err) :
    Pipeline c { st := s, trace := [] } (pre ++ cmd :: post) =
      ({ st := (c.Close (c.Send (afterSends c (c.Get s) pre) cmd.Name cmd.Args).1).1,
         trace := Event.get :: (sendEvents (pre ++ [cmd]) ++ [Event.close]) },
        Value.nil, some err) := by
  have hl := PipelineLoop_fail c (poolGet c { st := s, trace := [] }) pre cmd post err hpre hf
  simp only [poolGet, List.nil_append] at hl
  simp [Pipeline, poolGet, hl, connClose]

/-- C2: for every command list, the empty one included, when every `Send`, the
`Flush` and the `Receive` succeed, `Pipeline` borrows a connection, calls `Send`
once per command in list order with that command's name and arguments, then
`Flush` once, then `Receive` once, releases the connection, and returns that
`Receive`'s reply with the nil error. -/
theorem Pipeline_trace_ok (c : Conn σ) (s : σ) (commands : List CacheCommand)
    (hsend : sendsOk c (c.Get s) commands = true)
    (hflush : (c.Flush (afterSends c (c.Get s) commands)).2 = none)
    (hrecv : (c.Receive (c.Flush (afterSends c (c.Get s) commands)).1).2.2 = none) :
    (Pipeline c { st := s, trace := [] } commands).1.trace =
        Event.get :: (commands.map (fun cmd => Event.send cmd.Name cmd.Args)
          ++ [Event.flush, Event.receive, Event.close]) ∧
      (Pipeline c { st := s, trace := [] } commands).2.1 =
        (c.Receive (c.Flush (afterSends c (c.Get s) commands)).1).2.1 ∧
      (Pipeline c { st := s, trace := [] } commands).2.2 = none := by
  rw [Pipeline_after_sends c s commands hsend]
  simp [hflush, hrecv, sendEvents]

/-- The statement of C2 at `sampleCommands` on a pipelining connection, and at
the empty list on a connection whose `Receive` always answers. -/
theorem Pipeline_trace_ok_witness :
    ((Pipeline (fifoConn kvRespond) { st := Fifo.fresh [], trace := [] } sampleCommands).1.trace =
        [Event.get, Event.send "SET" [Value.str "a", Value.str "1"],
          Event.send "GET" [Value.str "a"], Event.flush, Event.receive, Event.close] ∧
      (Pipeline (fifoConn kvRespond) { st := Fifo.fresh [], trace := [] } sampleCommands).2.1 =
        Value.str "OK" ∧
      (Pipeline (fifoConn kvRespond) { st := Fifo.fresh [], trace := [] } sampleCommands).2.2 =
        none) ∧
    ((Pipeline (failAt 7 (GoError.new "down")) { st := 0, trace := [] } []).1.trace =
        [Event.get, Event.flush, Event.receive, Event.close] ∧
      (Pipeline (failAt 7 (GoError.new "down")) { st := 0, trace := [] } []).2.1 =
        Value.str "reply" ∧
      (Pipeline (failAt 7 (GoError.new "down")) { st := 0, trace := [] } []).2.2 = none) :=
  ⟨Pipeline_trace_ok (fifoConn kvRespond) (Fifo.fresh []) sampleCommands rfl rfl rfl,
   Pipeline_trace_ok (failAt 7 (GoError.new "down")) 0 [] rfl rfl rfl⟩

/-- C3: if the `Send` of a command fails after the sends before it succeeded,
`Pipeline` returns the nil reply and that error, and its calls are: borrow, the
sends up to and including the failed one, release (no later `Send`, no `Flush`,
no `Receive`).  If every `Send` succeeds and the `Flush` fails, `Pipeline`
returns the nil reply and that error, and its calls are: borrow, the sends, the
`Flush`, release (no `Receive`).  The release is the last call and the only
one. -/
theorem Pipeline_error (c : Conn σ) (s : σ) (commands : List CacheCommand) (err : GoError) :
    (∀ (pre : List CacheCommand) (cmd : CacheCommand) (post : List CacheCommand),
        commands = pre ++ cmd :: post →
        sendsOk c (c.Get s) pre = true →
        (c.Send (afterSends c (c.Get s) pre) cmd.Name cmd.Args).2 = some err →
        (Pipeline c { st := s, trace := [] } commands).2 = (Value.nil, some err) ∧
        (Pipeline c { st := s, trace := [] } commands).1.trace =
          Event.get :: (sendEvents (pre ++ [cmd]) ++ [Event.close])) ∧
    (sendsOk c (c.Get s) commands = true →
        (c.Flush (afterSends c (c.Get s) commands)).2 = some err →
        (Pipeline c { st := s, trace := [] } commands).2 = (Value.nil, some err) ∧
        (Pipeline c { st := s, trace := [] } commands).1.trace =
          Event.get :: (sendEvents commands ++ [Event.flush, Event.close])) := by
  refine ⟨?_, ?_⟩
  · intro pre cmd post hc hpre hf
    subst hc
    rw [Pipeline_send_fails c s pre cmd post err hpre hf]
    exact ⟨rfl, rfl⟩
  · intro hsend hf
    rw [Pipeline_after_sends c s commands hsend]
    simp [hf]

/-- The statement of C3 at `sampleCommands` followed by a third command, on a
connection whose second `Send` fails, and at `sampleCommands` on a connection
whose `Flush` fails. -/
theorem Pipeline_error_witness :
    ((Pipeline (failAt 1 (GoError.new "broken pipe")) { st := 0, trace := [] }
          (sampleCommands ++ [{ Name := "INCR", Args := [Value.str "n"] }])).2 =
        (Value.nil, some (GoError.new "broken pipe")) ∧
      (Pipeline (failAt 1 (GoError.new "broken pipe")) { st := 0, trace := [] }
          (sampleCommands ++ [{ Name := "INCR", Args := [Value.str "n"] }])).1.trace =
        [Event.get, Event.send "SET" [Value.str "a", Value.str "1"],
          Event.send "GET" [Value.str "a"], Event.close]) ∧
    ((Pipeline (failAt 2 (GoError.new "broken pipe")) { st := 0, trace := [] }
          sampleCommands).2 = (Value.nil, some (GoError.new "broken pipe")) ∧
      (Pipeline (failAt 2 (GoError.new "broken pipe")) { st := 0, trace := [] }
          sampleCommands).1.trace =
        [Event.get, Event.send "SET" [Value.str "a", Value.str "1"],
          Event.send "GET" [Value.str "a"], Event.flush, Event.close]) :=
  ⟨(Pipeline_error (failAt 1 (GoError.new "broken pipe")) 0
      (sampleCommands ++ [{ Name := "INCR", Args := [Value.str "n"] }])
      (GoError.new "broken pipe")).1
      [{ Name := "SET", Args := [Value.str "a", Value.str "1"] }]
      { Name := "GET", Args := [Value.str "a"] }
      [{ Name := "INCR", Args := [Value.str "n"] }] rfl rfl rfl,
   (Pipeline_error (failAt 2 (GoError.new "broken pipe")) 0 sampleCommands
      (GoError.new "broken pipe")).2 rfl rfl⟩

/-- On a pipelining connection every `Send` succeeds. -/
theorem fifo_sendsOk {τ : Type} (respond : τ → CacheCommand → τ × Value) (s : Fifo τ)
    (cmds : List CacheCommand) : sendsOk (fifoConn respond) s cmds = true := by
  induction cmds generalizing s with
  | nil => rfl
  | cons cmd rest ih =>
    simp only [sendsOk, Bool.and_eq_true]
    exact ⟨rfl, ih _⟩

/-- On a pipelining connection the sends only fill the output buffer. -/
theorem fifo_afterSends {τ : Type} (respond : τ → CacheCommand → τ × Value) (s : Fifo τ)
    (cmds : List CacheCommand) :
    afterSends (fifoConn respond) s cmds = { s with out := s.out ++ cmds } := by
  induction cmds generalizing s with
  | nil => simp [afterSends]
  | cons cmd rest ih =>
    simp only [afterSends]
    rw [ih]
    simp [fifoConn]

/-- On a freshly borrowed pipelining connection, `Pipeline` with a non-empty
command list returns the reply to the first command of the list. -/
theorem Pipeline_fifo_first {τ : Type} (respond : τ → CacheCommand → τ × Value) (srv : τ)
    (cmd : CacheCommand) (rest : List CacheCommand) :
    (Pipeline (fifoConn respond) { st := Fifo.fresh srv, trace := [] } (cmd :: rest)).2 =
      ((respond srv cmd).2, none) := by
  rw [Pipeline_after_sends _ _ _ (fifo_sendsOk respond _ _), fifo_afterSends]
  simp [fifoConn, Fifo.fresh, serve]

/-- C1, at a failing input: on a freshly borrowed pipelining connection to the
key/value server, `Pipeline [SET a 1, GET a]` succeeds and returns `OK`, the
reply to the first command `SET`; the server's replies are `OK` then `1`, so
the reply to the last command, `GET a`, is `1` and is not what is returned. -/
theorem Pipeline_returns_first_reply :
    (Pipeline (fifoConn kvRespond) { st := Fifo.fresh [], trace := [] } sampleCommands).2 =
        (Value.str "OK", none) ∧
      (serve kvRespond [] sampleCommands).2 = [Value.str "OK", Value.str "1"] ∧
      (Pipeline (fifoConn kvRespond) { st := Fifo.fresh [], trace := [] } sampleCommands).2.1 ≠
        ((serve kvRespond [] sampleCommands).2).getLastD Value.nil := by
  refine ⟨rfl, rfl, ?_⟩
  decide

/-! ## `Dels` -/

/-- C4: `Dels` borrows a connection and sends one `DEL` per key in list order.
If every `Send` succeeds it then calls `Flush` once and returns the `Flush`'s
result.  If the `Send` for a key fails after the sends before it succeeded, it
returns that error, the keys after it are not sent, and there is no `Flush`. -/
theorem Dels_trace (c : Conn σ) (s : σ) (keys : List String) (err : GoError) :
    (sendsOk c (c.Get s) (keys.map delCommand) = true →
        (Dels c { st := s, trace := [] } keys).1.trace =
          Event.get :: (keys.map (fun k => Event.send "DEL" [Value.str k])
            ++ [Event.flush, Event.close]) ∧
        (Dels c { st := s, trace := [] } keys).2 =
          (c.Flush (afterSends c (c.Get s) (keys.map delCommand))).2) ∧
    (∀ (pre : List String) (k : String) (post : List String),
        keys = pre ++ k :: post →
        sendsOk c (c.Get s) (pre.map delCommand) = true →
        (c.Send (afterSends c (c.Get s) (pre.map delCommand)) "DEL" [Value.str k]).2 = some err →
        (Dels c { st := s, trace := [] } keys).1.trace =
          Event.get :: ((pre ++ [k]).map (fun k => Event.send "DEL" [Value.str k])
            ++ [Event.close]) ∧
        (Dels c { st := s, trace := [] } keys).2 = some err) := by
  refine ⟨?_, ?_⟩
  · intro hsend
    have hl := PipelineLoop_ok c (poolGet c { st := s, trace := [] }) _ hsend
    simp only [poolGet, List.nil_append] at hl
    simp [Dels, DelsLoop_eq_PipelineLoop, poolGet, hl, connFlush, connClose, sendEvents,
      delCommand]
  · intro pre k post hk hpre hf
    subst hk
    have hl := PipelineLoop_fail c (poolGet c { st := s, trace := [] }) (pre.map delCommand)
      (delCommand k) (post.map delCommand) err hpre hf
    simp only [poolGet, List.nil_append] at hl
    have hm : (pre ++ k :: post).map delCommand
        = pre.map delCommand ++ delCommand k :: post.map delCommand := by simp
    simp only [Dels, DelsLoop_eq_PipelineLoop, poolGet, List.nil_append, hm]
    rw [hl]
    simp [connClose, sendEvents, delCommand]

/-- The statement of C4 at three keys: on a pipelining connection, and on a
connection whose second `Send` fails. -/
theorem Dels_trace_witness :
    ((Dels (fifoConn kvRespond) { st := Fifo.fresh [], trace := [] } ["k1", "k2", "k3"]).1.trace =
        [Event.get, Event.send "DEL" [Value.str "k1"], Event.send "DEL" [Value.str "k2"],
          Event.send "DEL" [Value.str "k3"], Event.flush, Event.close] ∧
      (Dels (fifoConn kvRespond) { st := Fifo.fresh [], trace := [] } ["k1", "k2", "k3"]).2 =
        none) ∧
    ((Dels (failAt 1 (GoError.new "broken pipe")) { st := 0, trace := [] }
          ["k1", "k2", "k3"]).1.trace =
        [Event.get, Event.send "DEL" [Value.str "k1"], Event.send "DEL" [Value.str "k2"],
          Event.close] ∧
      (Dels (failAt 1 (GoError.new "broken pipe")) { st := 0, trace := [] }
          ["k1", "k2", "k3"]).2 = some (GoError.new "broken pipe")) :=
  ⟨(Dels_trace (fifoConn kvRespond) (Fifo.fresh []) ["k1", "k2", "k3"] (GoError.new "x")).1 rfl,
   (Dels_trace (failAt 1 (GoError.new "broken pipe")) 0 ["k1", "k2", "k3"]
      (GoError.new "broken pipe")).2 ["k1"] "k2" ["k3"] rfl rfl rfl⟩

/-! ## `Set`, `SetEx`, `HSet`: a value that cannot be converted -/

/-- C5: when `utils.String` fails on the value, `Set`, `SetEx` and `HSet` return
that error having made no call at all (no connection is borrowed, no command is
issued, the outside world is untouched), and `HSet` returns the count 0. -/
theorem conversion_error_aborts (c : Conn σ) (g : Redigo) (u : Utils) (s : σ)
    (key : String) (field value : Value) (expire : Int) (err : GoError)
    (h : (u.utilsString value).2 = some err) :
    ((Set c u { st := s, trace := [] } key value).1.trace = [] ∧
      (Set c u { st := s, trace := [] } key value).1.st = s ∧
      (Set c u { st := s, trace := [] } key value).2 = some err) ∧
    ((SetEx c u { st := s, trace := [] } key value expire).1.trace = [] ∧
      (SetEx c u { st := s, trace := [] } key value expire).1.st = s ∧
      (SetEx c u { st := s, trace := [] } key value expire).2 = some err) ∧
    ((HSet c g u { st := s, trace := [] } key field value).1.trace = [] ∧
      (HSet c g u { st := s, trace := [] } key field value).1.st = s ∧
      (HSet c g u { st := s, trace := [] } key field value).2 = (0, some err)) := by
  simp [Set, SetEx, HSet, h]

/-- The statement of C5 for a channel value, which has no string form. -/
theorem conversion_error_aborts_witness :
    (modelUtils.utilsString (Value.chan 0)).2 = some (GoError.new "unsupported value") ∧
    (Set (fifoConn kvRespond) modelUtils { st := Fifo.fresh [], trace := [] } "k"
        (Value.chan 0)).1.trace = [] ∧
    (SetEx (fifoConn kvRespond) modelUtils { st := Fifo.fresh [], trace := [] } "k"
        (Value.chan 0) 60).2 = some (GoError.new "unsupported value") ∧
    (HSet (fifoConn kvRespond) sampleRedigo modelUtils { st := Fifo.fresh [], trace := [] } "k"
        (Value.str "f") (Value.chan 0)).2 = (0, some (GoError.new "unsupported value")) :=
  have h := conversion_error_aborts (fifoConn kvRespond) sampleRedigo modelUtils (Fifo.fresh [])
    "k" (Value.str "f") (Value.chan 0) 60 (GoError.new "unsupported value") rfl
  ⟨rfl, h.1.1, h.2.1.2.2, h.2.2.2.2⟩

/-! ## `TestOnBorrow` and the pool configuration -/

/-- C6, refuted at its boundary: a connection idle for exactly one minute (an
idle time that is at most one minute) is probed with one `PING`. -/
theorem TestOnBorrow_at_one_minute :
    (60000000000 : Duration) ≤ Minute ∧
      (TestOnBorrow (fifoConn kvRespond) { st := Fifo.fresh [], trace := [] }
        60000000000).1.trace = [Event.doCmd "PING" []] := by
  decide

/-- C6, amended: `TestOnBorrow` issues exactly one `PING` and returns its error
result when the idle time is one minute or longer; it issues no command, leaves
the outside world as it was and returns the nil error when the idle time is
shorter than one minute. -/
theorem TestOnBorrow_spec (c : Conn σ) (s : σ) (d : Duration) :
    (Minute ≤ d →
        (TestOnBorrow c { st := s, trace := [] } d).1.trace = [Event.doCmd "PING" []] ∧
        (TestOnBorrow c { st := s, trace := [] } d).1.st = (c.Do s "PING" []).1 ∧
        (TestOnBorrow c { st := s, trace := [] } d).2 = (c.Do s "PING" []).2.2) ∧
    (d < Minute →
        (TestOnBorrow c { st := s, trace := [] } d).1.trace = [] ∧
        (TestOnBorrow c { st := s, trace := [] } d).1.st = s ∧
        (TestOnBorrow c { st := s, trace := [] } d).2 = none) := by
  refine ⟨?_, ?_⟩
  · intro h
    have h2 : ¬ d < Minute := not_lt.mpr h
    simp [TestOnBorrow, h2, connDo]
  · intro h
    simp [TestOnBorrow, h]

/-- The amended C6 at an idle time of exactly one minute and of one nanosecond
less. -/
theorem TestOnBorrow_spec_witness :
    ((TestOnBorrow (fifoConn kvRespond) { st := Fifo.fresh [], trace := [] }
          60000000000).1.trace = [Event.doCmd "PING" []] ∧
      (TestOnBorrow (fifoConn kvRespond) { st := Fifo.fresh [], trace := [] }
          60000000000).2 = none) ∧
    ((TestOnBorrow (fifoConn kvRespond) { st := Fifo.fresh [], trace := [] }
          59999999999).1.trace = [] ∧
      (TestOnBorrow (fifoConn kvRespond) { st := Fifo.fresh [], trace := [] }
          59999999999).2 = none) :=
  have h1 := (TestOnBorrow_spec (fifoConn kvRespond) (Fifo.fresh []) 60000000000).1 (by decide)
  have h2 := (TestOnBorrow_spec (fifoConn kvRespond) (Fifo.fresh []) 59999999999).2 (by decide)
  ⟨⟨h1.1, h1.2.2⟩, ⟨h2.1, h2.2.2⟩⟩

/-- C10: the `IdleTimeout` that `NewRedisClient` configures, `time.Duration(120)`
(120 nanoseconds), is less than the one-minute window of `TestOnBorrow`; so for
every idle time not above the configured `IdleTimeout` the pool's `TestOnBorrow`
issues no command and returns the nil error. -/
theorem IdleTimeout_below_window (c : Conn σ) (s : σ) (d : Duration)
    (h : d ≤ (NewRedisClient σ).pool.IdleTimeout) :
    (NewRedisClient σ).pool.IdleTimeout = 120 * Nanosecond ∧
    (NewRedisClient σ).pool.IdleTimeout < Minute ∧
    ((NewRedisClient σ).pool.TestOnBorrow c { st := s, trace := [] } d).1.trace = [] ∧
    ((NewRedisClient σ).pool.TestOnBorrow c { st := s, trace := [] } d).2 = none := by
  have hlt : (NewRedisClient σ).pool.IdleTimeout < Minute := by
    simp [NewRedisClient, Minute, Second, Millisecond, Microsecond, Nanosecond]
  have hd : d < Minute := lt_of_le_of_lt h hlt
  refine ⟨by simp [NewRedisClient, Nanosecond], hlt, ?_, ?_⟩ <;>
    simp [NewRedisClient, TestOnBorrow, hd]

/-- The statement of C10 at an idle time equal to the configured `IdleTimeout`. -/
theorem IdleTimeout_below_window_witness :
    (120 : Duration) ≤ (NewRedisClient (Fifo (List (String × Value)))).pool.IdleTimeout ∧
    (NewRedisClient (Fifo (List (String × Value)))).pool.IdleTimeout < Minute ∧
    ((NewRedisClient (Fifo (List (String × Value)))).pool.TestOnBorrow (fifoConn kvRespond)
        { st := Fifo.fresh [], trace := [] } 120).1.trace = [] :=
  have h := IdleTimeout_below_window (fifoConn kvRespond) (Fifo.fresh []) 120 (by decide)
  ⟨by decide, h.2.1, h.2.2.1⟩

/-! ## `Publish` -/

/-- The loop of `Publish` appends one message per topic, in order. -/
theorem PublishLoop_eq (data : Bytes) (msgs : List ProducerMessage) (topics : List String) :
    PublishLoop data msgs topics = msgs ++ topics.map (publishMessage data) := by
  induction topics generalizing msgs with
  | nil => simp [PublishLoop]
  | cons t rest ih => simp [PublishLoop, ih, publishMessage]

/-- C9: for every payload and every topic list, the empty one included,
`Publish` makes exactly one `SendMessages` call; the message list it passes has
one message per topic, in order, the message for a topic carrying that topic,
the payload bytes unchanged as its value, and no key; and `Publish` returns
that call's error result unchanged. -/
theorem Publish_spec {τ : Type} (h : SyncProducer τ) (Topics : List String) (s : τ)
    (data : Bytes) (args : List Value) :
    ∃ msgs : List ProducerMessage,
      (Publish h Topics { st := s, calls := [] } data args).1.calls = [msgs] ∧
      msgs.length = Topics.length ∧
      (∀ i : Nat, msgs[i]? = (Topics[i]?).map (fun topic =>
          { Topic := topic, Key := none, Value := some (Encoder.ByteEncoder data) })) ∧
      (Publish h Topics { st := s, calls := [] } data args).2 = (h.SendMessages s msgs).2 := by
  have hm : PublishLoop data [] Topics = Topics.map (publishMessage data) := by
    rw [PublishLoop_eq]
    simp
  refine ⟨Topics.map (publishMessage data), ?_, ?_, ?_, ?_⟩
  · simp [Publish, hm]
  · simp
  · intro i
    rw [List.getElem?_map]
    rfl
  · simp [Publish, hm]

/-! ## `InvokeService` and `InvokeServiceWithClient` -/

/-- C7, refuted for a string payload: with the string `a` as payload, the body
`InvokeServiceWithClient` and `InvokeService` send is the single byte of `a`,
while the JSON serialization of the string `a` is the three bytes of `"a"`,
quotes included. -/
theorem Invoke_string_body_is_not_json :
    (InvokeServiceWithClient (modelEnv []) modelUtils (some (echoClient [])) { st := (), calls := [] }
        "app" "method" (Value.str "a")).1.calls =
      [DaprEvent.invoke "app" "method" "post" { ContentType := "application/json", Data := [97] }] ∧
    (InvokeService (modelEnv []) modelUtils { st := (), calls := [] }
        "app" "method" (Value.str "a")).1.calls =
      [DaprEvent.newClient,
        DaprEvent.invoke "app" "method" "post" { ContentType := "application/json", Data := [97] }] ∧
    jsonMarshal (Value.str "a") = ([34, 97, 34], none) := by
  decide

/-- C7, amended: with a non-nil client (for `InvokeService`, a `NewClient` that
succeeds with one) the functions make exactly one `InvokeMethodWithContent`
call, with verb `post` and content type `application/json`, whose body is: the
bytes `utils.StringToBytes` gives for a string payload (no JSON serialization);
the payload itself for a byte payload; the `json.Marshal` output for any other
payload that it serializes.  For a payload of another kind that `json.Marshal`
rejects they return the wrapped error and call neither the transport nor, in
`InvokeService`, `NewClient`. -/
theorem Invoke_body {τ : Type} (env : DaprEnv τ) (u : Utils) (cl : DaprClient τ) (s s1 : τ)
    (appId methodName : String) (data : Value)
    (hnew : env.NewClient s = (s1, some cl, none)) :
    (∀ t, data = Value.str t →
      (InvokeServiceWithClient env u (some cl) { st := s, calls := [] } appId methodName data).1.calls
        = [DaprEvent.invoke appId methodName "post"
            { ContentType := "application/json", Data := u.StringToBytes t }] ∧
      (InvokeService env u { st := s, calls := [] } appId methodName data).1.calls
        = [DaprEvent.newClient, DaprEvent.invoke appId methodName "post"
            { ContentType := "application/json", Data := u.StringToBytes t }]) ∧
    (∀ b, data = Value.bytes b →
      (InvokeServiceWithClient env u (some cl) { st := s, calls := [] } appId methodName data).1.calls
        = [DaprEvent.invoke appId methodName "post"
            { ContentType := "application/json", Data := b }] ∧
      (InvokeService env u { st := s, calls := [] } appId methodName data).1.calls
        = [DaprEvent.newClient, DaprEvent.invoke appId methodName "post"
            { ContentType := "application/json", Data := b }]) ∧
    ((∀ t, data ≠ Value.str t) → (∀ b, data ≠ Value.bytes b) → (env.Marshal data).2 = none →
      (InvokeServiceWithClient env u (some cl) { st := s, calls := [] } appId methodName data).1.calls
        = [DaprEvent.invoke appId methodName "post"
            { ContentType := "application/json", Data := (env.Marshal data).1 }] ∧
      (InvokeService env u { st := s, calls := [] } appId methodName data).1.calls
        = [DaprEvent.newClient, DaprEvent.invoke appId methodName "post"
            { ContentType := "application/json", Data := (env.Marshal data).1 }]) ∧
    (∀ err, (∀ t, data ≠ Value.str t) → (∀ b, data ≠ Value.bytes b) →
      (env.Marshal data).2 = some err →
      (InvokeServiceWithClient env u (some cl) { st := s, calls := [] } appId methodName data).1.calls
        = [] ∧
      (InvokeServiceWithClient env u (some cl) { st := s, calls := [] } appId methodName data).2
        = ([], some (GoError.wrap err "marshal invoke data")) ∧
      (InvokeService env u { st := s, calls := [] } appId methodName data).1.calls = [] ∧
      (InvokeService env u { st := s, calls := [] } appId methodName data).2
        = ([], some (GoError.wrap err "marshal invoke data"))) := by
  refine ⟨?_, ?_, ?_, ?_⟩
  · intro t ht
    subst ht
    constructor
    · simp only [InvokeServiceWithClient, daprInvoke]
      cases (cl.InvokeMethodWithContent s appId methodName "post"
        { ContentType := "application/json", Data := u.StringToBytes t }).2.2 <;> simp
    · simp only [InvokeService, daprInvoke, hnew]
      cases (cl.InvokeMethodWithContent s1 appId methodName "post"
        { ContentType := "application/json", Data := u.StringToBytes t }).2.2 <;> simp
  · intro b hb
    subst hb
    constructor
    · simp only [InvokeServiceWithClient, daprInvoke]
      cases (cl.InvokeMethodWithContent s appId methodName "post"
        { ContentType := "application/json", Data := b }).2.2 <;> simp
    · simp only [InvokeService, daprInvoke, hnew]
      cases (cl.InvokeMethodWithContent s1 appId methodName "post"
        { ContentType := "application/json", Data := b }).2.2 <;> simp
  · intro hs hb hm
    constructor
    · cases data with
      | str t => exact absurd rfl (hs t)
      | bytes b => exact absurd rfl (hb b)
      | _ =>
        simp only [InvokeServiceWithClient, daprInvoke, hm]
        split <;> simp
    · cases data with
      | str t => exact absurd rfl (hs t)
      | bytes b => exact absurd rfl (hb b)
      | _ =>
        simp only [InvokeService, daprInvoke, hm, hnew]
        split <;> simp
  · intro err hs hb hm
    cases data with
    | str t => exact absurd rfl (hs t)
    | bytes b => exact absurd rfl (hb b)
    | _ => simp [InvokeServiceWithClient, InvokeService, hm]

/-- The amended C7 on the JSON model: a string, a byte sequence, an integer and
a channel as payload. -/
theorem Invoke_body_witness :
    ((InvokeServiceWithClient (modelEnv []) modelUtils (some (echoClient []))
        { st := (), calls := [] } "app" "method" (Value.str "a")).1.calls
      = [DaprEvent.invoke "app" "method" "post"
          { ContentType := "application/json", Data := [97] }]) ∧
    ((InvokeService (modelEnv []) modelUtils
        { st := (), calls := [] } "app" "method" (Value.bytes [1, 2])).1.calls
      = [DaprEvent.newClient, DaprEvent.invoke "app" "method" "post"
          { ContentType := "application/json", Data := [1, 2] }]) ∧
    ((InvokeServiceWithClient (modelEnv []) modelUtils (some (echoClient []))
        { st := (), calls := [] } "app" "method" (Value.int 5)).1.calls
      = [DaprEvent.invoke "app" "method" "post"
          { ContentType := "application/json", Data := [53] }]) ∧
    ((InvokeService (modelEnv []) modelUtils
        { st := (), calls := [] } "app" "method" (Value.chan 0)).1.calls = [] ∧
      (InvokeService (modelEnv []) modelUtils
        { st := (), calls := [] } "app" "method" (Value.chan 0)).2
      = ([], some (GoError.wrap (GoError.new "json: unsupported type: chan int")
          "marshal invoke data"))) :=
  ⟨((Invoke_body (modelEnv []) modelUtils (echoClient []) () () "app" "method"
      (Value.str "a") rfl).1 "a" rfl).1,
   ((Invoke_body (modelEnv []) modelUtils (echoClient []) () () "app" "method"
      (Value.bytes [1, 2]) rfl).2.1 [1, 2] rfl).2,
   ((Invoke_body (modelEnv []) modelUtils (echoClient []) () () "app" "method"
      (Value.int 5) rfl).2.2.1 (fun _ h => Value.noConfusion h)
      (fun _ h => Value.noConfusion h) rfl).1,
   ((Invoke_body (modelEnv []) modelUtils (echoClient []) () () "app" "method"
      (Value.chan 0) rfl).2.2.2 (GoError.new "json: unsupported type: chan int")
      (fun _ h => Value.noConfusion h) (fun _ h => Value.noConfusion h) rfl).2.2⟩

/-! ## Every method releases the connection it borrows -/

/-- A list of commands holds no `Get` and no `Close`. -/
theorem count_of_commands (body : List Event) (h : ∀ e ∈ body, e.isCommand = true) :
    body.count Event.get = 0 ∧ body.count Event.close = 0 := by
  constructor <;>
  · rw [List.count_eq_zero]
    intro hmem
    have := h _ hmem
    simp [Event.isCommand] at this

/-- The send loop adds only `Send` calls to the trace. -/
theorem PipelineLoop_trace (c : Conn σ) (w : World σ) (cmds : List CacheCommand) :
    ∃ body, (PipelineLoop c w cmds).1.trace = w.trace ++ body ∧
      ∀ e ∈ body, e.isCommand = true := by
  induction cmds generalizing w with
  | nil => exact ⟨[], by simp [PipelineLoop], by simp⟩
  | cons cmd rest ih =>
    simp only [PipelineLoop]
    cases h : (connSend c w cmd.Name cmd.Args).2 with
    | some err =>
      exact ⟨[Event.send cmd.Name cmd.Args], by simp [connSend], by simp [Event.isCommand]⟩
    | none =>
      obtain ⟨body, hb, hc⟩ := ih (connSend c w cmd.Name cmd.Args).1
      refine ⟨Event.send cmd.Name cmd.Args :: body, ?_, ?_⟩
      · simp only [hb]
        simp [connSend]
      · intro e he
        rcases List.mem_cons.mp he with rfl | he
        · rfl
        · exact hc e he

/-- A trace that is `Get`, its own inner part, `Close`, with commands only in the
inner part, has the borrow/commands/release shape. -/
theorem shape_of_inner (tr : List Event)
    (h : tr = Event.get :: (tr.tail.dropLast ++ [Event.close]))
    (hc : ∀ e ∈ tr.tail.dropLast, e.isCommand = true) :
    ∃ body, tr = Event.get :: (body ++ [Event.close]) ∧ ∀ e ∈ body, e.isCommand = true :=
  ⟨tr.tail.dropLast, h, hc⟩

/-- The calls of a method are either none on a connection, or: borrow, then
commands only, then release. -/
theorem perform_shape (c : Conn σ) (g : Redigo) (u : Utils) (s : σ) (call : Call) :
    (∀ e ∈ (perform c g u { st := s, trace := [] } call).trace,
        e ≠ Event.get ∧ e ≠ Event.close ∧ e.isCommand = false) ∨
    (∃ body, (perform c g u { st := s, trace := [] } call).trace
        = Event.get :: (body ++ [Event.close]) ∧ ∀ e ∈ body, e.isCommand = true) := by
  cases call with
  | Shutdown =>
    left
    simp [perform, Shutdown, poolShutdown, Event.isCommand]
  | Set key value =>
    cases h : (u.utilsString value).2 with
    | some err => left; simp [perform, Set, h]
    | none =>
      right
      exact ⟨[Event.doCmd "SET" [Value.str key, Value.str (u.utilsString value).1]],
        by simp [perform, Set, h, poolGet, connDo, connClose],
        by simp [Event.isCommand]⟩
  | SetEx key value expire =>
    cases h : (u.utilsString value).2 with
    | some err => left; simp [perform, SetEx, h]
    | none =>
      right
      exact ⟨[Event.doCmd "SET" [Value.str key, Value.str (u.utilsString value).1, Value.str "EX", Value.int expire]],
        by simp [perform, SetEx, h, poolGet, connDo, connClose],
        by simp [Event.isCommand]⟩
  | HSet key field value =>
    cases h : (u.utilsString value).2 with
    | some err => left; simp [perform, HSet, h]
    | none =>
      right
      exact ⟨[Event.doCmd "HSET" [Value.str key, field, Value.str (u.utilsString value).1]],
        by simp [perform, HSet, h, poolGet, connDo, connClose],
        by simp [Event.isCommand]⟩
  | Del key =>
    right
    refine ⟨[Event.doCmd "DEL" [Value.str key]], ?_, by simp [Event.isCommand]⟩
    simp only [perform, Del]
    split <;> simp [poolGet, connDo, connClose]
  | Dels keys =>
    right
    obtain ⟨body, hb, hc⟩ := PipelineLoop_trace c (poolGet c { st := s, trace := [] })
      (keys.map delCommand)
    simp only [poolGet, List.nil_append] at hb
    simp only [perform, Dels, DelsLoop_eq_PipelineLoop]
    split
    · exact ⟨body, by simp [connClose, hb, poolGet], hc⟩
    · refine ⟨body ++ [Event.flush], by simp [connClose, connFlush, hb, poolGet], ?_⟩
      intro e he
      rcases List.mem_append.mp he with he | he
      · exact hc e he
      · simp at he
        subst he
        rfl
  | Pipeline commands =>
    right
    obtain ⟨body, hb, hc⟩ := PipelineLoop_trace c (poolGet c { st := s, trace := [] }) commands
    simp only [poolGet, List.nil_append] at hb
    simp only [perform, Pipeline]
    split
    · exact ⟨body, by simp [connClose, hb, poolGet], hc⟩
    · split
      · refine ⟨body ++ [Event.flush], by simp [connClose, connFlush, hb, poolGet], ?_⟩
        intro e he
        rcases List.mem_append.mp he with he | he
        · exact hc e he
        · simp at he
          subst he
          rfl
      · have hall : ∀ e ∈ body ++ [Event.flush, Event.receive], e.isCommand = true := by
          intro e he
          rcases List.mem_append.mp he with he | he
          · exact hc e he
          · simp at he
            rcases he with rfl | rfl <;> rfl
        split
        · exact ⟨body ++ [Event.flush, Event.receive],
            by simp [connClose, connFlush, connReceive, hb, poolGet], hall⟩
        · exact ⟨body ++ [Event.flush, Event.receive],
            by simp [connClose, connFlush, connReceive, hb, poolGet], hall⟩
  | _ =>
    right
    apply shape_of_inner <;>
      simp [perform, Exists, Expire, Incr, Ping, HDel, HDels, HMGet, HMSet, HGet, HGetInt,
        HGetInt64, HGetFloat64, HGetString, HGetAll, Get, GetInt, GetInt64, GetFloat64,
        GetString, SIsMember, SAdd, SRem, SInter, SUnion, SDiff, SMembers, ZRemRangeByScore,
        ZRangeByScore, ZRange, ZAdd, ZCard, ZScore, ZInterstore, RPop, poolGet, connDo,
        connClose, Event.isCommand]

/-- C8: for every method of `RedisClient`, every argument and every behaviour of
the connection, the method borrows at most one connection and releases as many
as it borrows; either it makes no call on a connection at all, or its calls
are: one `Get`, then commands only, then one `Close`, which is the last call. -/
theorem perform_scoped (c : Conn σ) (g : Redigo) (u : Utils) (s : σ) (call : Call) :
    (perform c g u { st := s, trace := [] } call).trace.count Event.get ≤ 1 ∧
    (perform c g u { st := s, trace := [] } call).trace.count Event.close =
      (perform c g u { st := s, trace := [] } call).trace.count Event.get ∧
    ((∀ e ∈ (perform c g u { st := s, trace := [] } call).trace,
        e ≠ Event.get ∧ e ≠ Event.close ∧ e.isCommand = false) ∨
     (∃ body, (perform c g u { st := s, trace := [] } call).trace
        = Event.get :: (body ++ [Event.close]) ∧ ∀ e ∈ body, e.isCommand = true)) := by
  have hshape := perform_shape c g u s call
  refine ⟨?_, ?_, hshape⟩
  · rcases hshape with h | ⟨body, hb, hc⟩
    · have h0 : (perform c g u { st := s, trace := [] } call).trace.count Event.get = 0 := by
        rw [List.count_eq_zero]
        intro hmem
        exact (h _ hmem).1 rfl
      omega
    · rw [hb]
      have := (count_of_commands body hc).1
      simp [List.count_cons, List.count_append, this]
  · rcases hshape with h | ⟨body, hb, hc⟩
    · have h0 : (perform c g u { st := s, trace := [] } call).trace.count Event.get = 0 := by
        rw [List.count_eq_zero]
        intro hmem
        exact (h _ hmem).1 rfl
      have h1 : (perform c g u { st := s, trace := [] } call).trace.count Event.close = 0 := by
        rw [List.count_eq_zero]
        intro hmem
        exact (h _ hmem).2.1 rfl
      omega
    · rw [hb]
      have h1 := (count_of_commands body hc).1
      have h2 := (count_of_commands body hc).2
      simp [List.count_cons, List.count_append, h1, h2]

end Hdsdk
